import Mathlib

/-!
Verification of the samply/file-table clinical data viewer.

This file shallowly embeds the core logic of the repository:
  * `src/fhir.rs`   — the FHIR resource model (`Coding`, `CodeableConcept`,
    the resource structs, `Resource`, `TimelineEvent`),
  * `src/table.rs`  — the interactive table's filtering / sorting /
    column-projection pipeline and the drag-and-drop reorder logic,
  * `src/main.rs`   — the patient-timeline construction in `PatientView`,
  * `src/serverfn.rs` — `get_patient_details`,
together with a model of the serde JSON deserialization of bundles.

Modelling conventions:
  * `jiff::Timestamp` is modelled as `Int` (an instant on a linear time
    scale); all uses in the source only compare, sort and group timestamps.
  * Rust `String` is Lean `String`; Rust's byte-lexicographic `Ord` on
    `String` coincides with code-point lexicographic order (a property of
    UTF-8) and is modelled by the executable `strLe` below.
    `str::to_lowercase` is modelled by per-character ASCII lowercasing
    (`strToLower`), and `str::contains` by `strContains` (for valid UTF-8,
    byte-level substring occurrence coincides with character-level infix).
  * Rust's stable `sort_by_key` (used via itertools `sorted_by_key`) is
    modelled by `List.mergeSort`, which is a stable merge sort.
  * `HashSet<String>` (the categorical filters) is modelled by a list with
    `contains` membership; only membership and emptiness are ever used.
  * `f64` (only `Quantity.value`) is modelled by `Rat`; no arithmetic is
    ever performed on it.
-/

/-! ## String operations (models of Rust `str` operations) -/

/-- Lexicographic `≤` on character lists, by code point.  Models Rust's
`Ord for String` (byte-lexicographic on UTF-8, which orders identically to
code-point-lexicographic). -/
def charListLe : List Char → List Char → Bool
  | [], _ => true
  | _ :: _, [] => false
  | a :: as, b :: bs => if a < b then true else if b < a then false else charListLe as bs

/-- `a ≤ b` for strings, as Rust's `Ord for String` compares them. -/
def strLe (a b : String) : Bool := charListLe a.data b.data

/-- Per-character ASCII lowercasing; models `str::to_lowercase`. -/
def strToLower (s : String) : String := ⟨s.data.map Char.toLower⟩

/-- `pat` occurs as a contiguous infix of `hay`.  Models `str::contains`. -/
def containsSub : List Char → List Char → Bool
  | [], pat => pat.isEmpty
  | hay@(_ :: t), pat => pat.isPrefixOf hay || containsSub t pat

/-- `hay.contains(pat)` for strings. -/
def strContains (hay pat : String) : Bool := containsSub hay.data pat.data

/-! ## Stable sort-by-key (model of itertools `sorted_by_key`) -/

/-- `l.sorted_by_key(key)` with the order `le` on keys: a stable merge
sort, exactly as Rust's `sort_by_key` guarantees. -/
def sortByKey {α κ : Type} (key : α → κ) (le : κ → κ → Bool) (l : List α) : List α :=
  l.mergeSort (fun a b => le (key a) (key b))

/-! ## FHIR data model (`src/fhir.rs`) -/

/-- `jiff::Timestamp`: an instant on a linear time scale. -/
abbrev Timestamp := Int

/-- `HumanName` (fhir.rs). -/
structure HumanName where
  text : Option String
  family : Option String
  given : Option (List String)
  pfx : Option (List String)
  sfx : Option (List String)
deriving DecidableEq

/-- `Address` (fhir.rs). -/
structure Address where
  text : Option String
  line : Option (List String)
  city : Option String
  district : Option String
  state : Option String
  postal_code : Option String
  country : Option String
deriving DecidableEq

/-- `Patient` (fhir.rs). -/
structure Patient where
  id : Option String
  name : Option (List HumanName)
  gender : Option String
  birth_date : Option String
  deceased_boolean : Option Bool
  address : Option (List Address)
deriving DecidableEq

/-- `Coding` (fhir.rs).  The client-side representation; the server-side
code-map display enrichment (`From<RawCoding>`, behind
`cfg(feature = "server")`) is external configuration and out of scope. -/
structure Coding where
  system : Option String
  code : Option String
  display : Option String
  user_selected : Option Bool
deriving DecidableEq

/-- `CodeableConcept` (fhir.rs). -/
structure CodeableConcept where
  coding : Option (List Coding)
  text : Option String
deriving DecidableEq

/-- `Period` (fhir.rs).  (`end` is a Lean keyword, hence `end_`.) -/
structure Period where
  start : Option Timestamp
  end_ : Option Timestamp
deriving DecidableEq

/-- `Identifier` (fhir.rs). -/
structure Identifier where
  type : Option CodeableConcept
  value : Option String
deriving DecidableEq

/-- `Reference` (fhir.rs). -/
structure Reference where
  reference : Option String
  identifier : Option Identifier
deriving DecidableEq

/-- `Annotation` (fhir.rs); named `Annot` here. -/
structure Annot where
  time : Option Timestamp
  text : String
deriving DecidableEq

/-- `Encounter` (fhir.rs).  (`class` is a Lean keyword, hence `class_`.) -/
structure Encounter where
  id : Option String
  identifier : Option (List Identifier)
  status : String
  class_ : Coding
  type : Option (List CodeableConcept)
  service_type : Option CodeableConcept
  period : Option Period
  service_provider : Option Reference
deriving DecidableEq

/-- `Condition` (fhir.rs). -/
structure Condition where
  id : Option String
  clinical_status : Option CodeableConcept
  verification_status : Option CodeableConcept
  code : CodeableConcept
  body_site : Option (List CodeableConcept)
  onset_period : Option Period
  onset_date_time : Option Timestamp
  recorded_date : Timestamp
  note : Option (List Annot)
deriving DecidableEq

/-- `Procedure` (fhir.rs). -/
structure Procedure where
  id : Option String
  status : String
  category : Option CodeableConcept
  code : CodeableConcept
  performed_date_time : Option Timestamp
  performed_period : Option Period
  body_site : Option (List CodeableConcept)
  note : Option (List Annot)
deriving DecidableEq

/-- `Quantity` (fhir.rs); `value: Option<f64>` modelled with `Rat`. -/
structure Quantity where
  value : Option Rat
  comparator : Option String
  unit : Option String
  system : Option String
  code : Option String
deriving DecidableEq

/-- `ObservationReferenceRange` (fhir.rs). -/
structure ObservationReferenceRange where
  low : Option Quantity
  high : Option Quantity
  type : Option CodeableConcept
deriving DecidableEq

/-- `Observation` (fhir.rs). -/
structure Observation where
  id : Option String
  identifier : List Identifier
  status : String
  category : List CodeableConcept
  code : CodeableConcept
  encounter : Option Reference
  effective_date_time : Timestamp
  issued : Option Timestamp
  value_quantity : Option Quantity
  data_absent_reason : Option CodeableConcept
  interpretation : Option (List CodeableConcept)
  note : Option (List Annot)
  method : Option CodeableConcept
  reference_range : Option (List ObservationReferenceRange)
deriving DecidableEq

/-- `Resource` (fhir.rs): the closed variant set, with `Unknown` for any
unrecognized `resourceType` (serde's `#[serde(other)]`). -/
inductive Resource where
  | patient (p : Patient)
  | encounter (e : Encounter)
  | condition (c : Condition)
  | procedure (p : Procedure)
  | observation (o : Observation)
  | unknown
deriving DecidableEq

/-- `MixedEntry` (fhir.rs). -/
structure MixedEntry where
  resource : Resource
deriving DecidableEq

/-- `MixedBundle` (fhir.rs). -/
structure MixedBundle where
  entry : List MixedEntry
deriving DecidableEq

/-- `CodeableConcept::code_in_system` (fhir.rs, lines 216–224):
`self.coding.as_ref()?.iter().find(|c| c.system.as_deref() == Some(system)).and_then(|c| c.code.clone())`. -/
def CodeableConcept.code_in_system (cc : CodeableConcept) (system : String) : Option String :=
  match cc.coding with
  | Option.none => Option.none
  | some codings =>
    (codings.find? (fun coding => coding.system == some system)).bind (fun coding => coding.code)

/-- `impl TimelineEvent for Encounter` (fhir.rs): `period.start`. -/
def Encounter.timestamp (e : Encounter) : Option Timestamp :=
  e.period.bind (fun period => period.start)

/-- `impl TimelineEvent for Condition` (fhir.rs): `Some(recorded_date)`. -/
def Condition.timestamp (c : Condition) : Option Timestamp :=
  some c.recorded_date

/-- `impl TimelineEvent for Procedure` (fhir.rs):
`performed_period.and_then(|p| p.start).or(performed_date_time)`. -/
def Procedure.timestamp (p : Procedure) : Option Timestamp :=
  match p.performed_period.bind (fun period => period.start) with
  | some t => some t
  | Option.none => p.performed_date_time

/-- `impl TimelineEvent for Observation` (fhir.rs): `Some(effective_date_time)`. -/
def Observation.timestamp (o : Observation) : Option Timestamp :=
  some o.effective_date_time

/-- `Resource::timeline_event` (fhir.rs, lines 746–756): the four clinical
variants expose the `TimelineEvent` capability (here modelled by the value
of the trait object's only method, `timestamp()`); `Patient` and the
catch-all (`Unknown`) yield `None`. -/
def Resource.timeline_event : Resource → Option (Option Timestamp)
  | .encounter e => some e.timestamp
  | .condition c => some c.timestamp
  | .procedure p => some p.timestamp
  | .observation o => some o.timestamp
  | _ => Option.none

/-- Modelled from the spec: `Resource::timeline_timestamp`, called in
`main.rs` line 151, is not defined under `src/`; per spec §3/§4.1 it is the
timeline timestamp of a resource (Encounter: `period.start`; Condition:
`recordedDate`; Procedure: `performedPeriod.start` else
`performedDateTime`; Observation: `effectiveDateTime`; `None` otherwise),
i.e. exactly `timeline_event` composed with `TimelineEvent::timestamp`,
both of which are in `src/fhir.rs`. -/
def Resource.timeline_timestamp (r : Resource) : Option Timestamp :=
  match r.timeline_event with
  | Option.none => Option.none
  | some t => t

/-! ## Timeline construction (`src/main.rs`, `PatientView`) -/

/-- itertools `circular_tuple_windows::<(_, _)>()`: consecutive pairs,
wrapping the last element around to the first. -/
def circularTupleWindows {α : Type} (l : List α) : List (α × α) :=
  match l with
  | [] => []
  | x :: xs => l.zip (xs ++ [x])

/-- The sorted timeline of `PatientView` (main.rs lines 148–153):
`bundle.entry.iter().filter_map(|e| e.resource.timeline_timestamp().map(|t| (e, t))).sorted_by_key(|(_, t)| t.clone())`. -/
def timelineEntries (b : MixedBundle) : List (MixedEntry × Timestamp) :=
  sortByKey (fun p => p.2) (fun a b => decide (a ≤ b))
    (b.entry.filterMap (fun e => (e.resource.timeline_timestamp).map (fun t => (e, t))))

/-- The entries rendered by the timeline loop: the loop runs over
`circular_tuple_windows` and renders the first component of each pair. -/
def renderedTimeline (b : MixedBundle) : List (MixedEntry × Timestamp) :=
  (circularTupleWindows (timelineEntries b)).map Prod.fst

/-- The result of the `match entry.resource` in the timeline loop
(main.rs lines 155–265): one card per clinical variant, `none` modelling
the `_ => unreachable!()` branch. -/
inductive TimelineCard where
  | encounterCard (e : Encounter)
  | conditionCard (c : Condition)
  | procedureCard (p : Procedure)
  | observationCard (o : Observation)
deriving DecidableEq

/-- The timeline-loop `match` on the resource (main.rs lines 155–265). -/
def renderTimelineCard : Resource → Option TimelineCard
  | .encounter e => some (.encounterCard e)
  | .condition c => some (.conditionCard c)
  | .procedure p => some (.procedureCard p)
  | .observation o => some (.observationCard o)
  | _ => Option.none

/-- The day-boundary headings (main.rs lines 266–272): after rendering the
entry of each circular pair, a heading is emitted iff
`next_timestamp.to_zoned(system).date() > timestamp.to_zoned(system).date()`.
The conversion of an instant to a calendar date in the system time zone is
the parameter `localDate`. -/
def dayBoundaries (localDate : Timestamp → Int) (b : MixedBundle) : List Bool :=
  (circularTupleWindows (timelineEntries b)).map
    (fun p => decide (localDate p.2.2 > localDate p.1.2))

/-! ## Interactive table (`src/table.rs`) -/

/-- `Column` (table.rs). -/
structure Column where
  name : String
  categorical : Bool
  hidden : Bool
deriving DecidableEq

/-- The global-search filter (table.rs lines 77–82): a row passes iff any
cell, lowercased, contains the lowercased search text. -/
def globalSearchFilter (search_text : String) (row : List String) : Bool :=
  row.any (fun cell => strContains (strToLower cell) (strToLower search_text))

/-- The per-column filter (table.rs lines 83–96): every cell must satisfy
its column's filters.  `column_search_text.get(i).unwrap_or(default)` is
`(… .get? i).getD ""`; `column_category_filter.get(i).unwrap()` is modelled
total with `getD []` (the view always allocates one filter per column, so
the index is in range wherever rows are as long as the filter vectors). -/
def cellFilter (column_search_text : List String)
    (column_category_filter : List (List String)) (i : Nat) (cell : String) : Bool :=
  let filter_text := strToLower ((column_search_text.get? i).getD "")
  let category_filter := (column_category_filter.get? i).getD []
  (decide (filter_text = "") && decide (category_filter = []))
  || (!(decide (filter_text = "")) && strContains (strToLower cell) filter_text)
  || (!(decide (category_filter = [])) && category_filter.contains cell)

def columnFilters (column_search_text : List String)
    (column_category_filter : List (List String)) (row : List String) : Bool :=
  (row.enum).all (fun ic => cellFilter column_search_text column_category_filter ic.1 ic.2)

/-- The sort-column index (table.rs lines 99–103):
`columns.iter().position(|h| h.name == sort_by).unwrap_or(0)`. -/
def sortColumnIdx (columns : List Column) (sort_by : String) : Nat :=
  (columns.findIdx? (fun h => h.name == sort_by)).getD 0

/-- The sort key of a row (table.rs line 104):
`row.get(idx).cloned().unwrap_or_default()`. -/
def rowSortKey (columns : List Column) (sort_by : String) (row : List String) : String :=
  (row.get? (sortColumnIdx columns sort_by)).getD ""

/-- Projection of a row onto the visible (custom) columns, in their
user-chosen order (table.rs lines 106–122). -/
def projectRow (columns : List Column) (custom_columns : List String)
    (row : List String) : List String :=
  custom_columns.filterMap (fun header =>
    (columns.findIdx? (fun h => h.name == header)).bind (fun idx => row.get? idx))

/-- The `filtered_data` memo of `Table` (table.rs lines 73–128): enumerate,
filter by global search, filter by per-column filters, stably sort by the
sort column's value, project onto the visible columns, and reverse the
whole list when the sort direction is descending. -/
def filteredData (columns : List Column) (search_text : String)
    (custom_columns : List String) (sort_by : String) (sort_ascending : Bool)
    (column_search_text : List String) (column_category_filter : List (List String))
    (data : List (List String)) : List (Nat × List String) :=
  let rows := sortByKey (fun p => rowSortKey columns sort_by p.2) strLe
    (((data.enum).filter (fun p => globalSearchFilter search_text p.2)).filter
      (fun p => columnFilters column_search_text column_category_filter p.2))
  let rows := rows.map (fun p => (p.1, projectRow columns custom_columns p.2))
  if sort_ascending then rows else rows.reverse

/-- The sort-button click handler (table.rs lines 225–236): clicking the
current sort column toggles the direction, clicking another column selects
it and resets to ascending. -/
def sortClick (sort_by : String) (sort_ascending : Bool) (header : String) : String × Bool :=
  if sort_by == header then (sort_by, !sort_ascending) else (header, true)

/-- The drop-zone gap indices rendered while dragging column
`dragged_index` (table.rs lines 364–370): all gaps `0 ‥ len` except the
two adjacent to the dragged column. -/
def dropZones (len : Nat) (dragged_index : Nat) : List Nat :=
  (List.range (len + 1)).filter (fun i => !(i == dragged_index) && !(i == dragged_index + 1))

/-- The `ondrop` handler (table.rs lines 381–389): remove the dragged
column and reinsert it at `if i > dragged_index { i - 1 } else { i }`.
(`Vec::remove` panics when out of range; the view only drags rendered
header indices, so the lookup is modelled with a no-op fallback.) -/
def dropOnGap (cols : List String) (dragged_index i : Nat) : List String :=
  match cols.get? dragged_index with
  | Option.none => cols
  | some col =>
    (cols.eraseIdx dragged_index).insertIdx (if i > dragged_index then i - 1 else i) col

/-! ## `get_patient_details` (`src/serverfn.rs`, lines 42–76) -/

/-- The outcome of the HTTP fetch + whole-bundle deserialization performed
before the patient lookup: the `?`-propagated transport/HTTP failures
(`send`, `error_for_status`) and whole-body deserialization failures
(`json::<MixedBundle>`), or the parsed bundle. -/
inductive FetchOutcome where
  | transportError (msg : String)
  | deserializationError (msg : String)
  | fetched (bundle : MixedBundle)
deriving DecidableEq

/-- The error taxonomy of `get_patient_details`: transport and
whole-bundle deserialization failures propagate via `?`;
`ServerFnError::new("No patient found")` is raised by the patient lookup. -/
inductive PatientDetailsError where
  | transport (msg : String)
  | deserialization (msg : String)
  | noPatientFound
deriving DecidableEq

/-- `get_patient_details` (serverfn.rs lines 42–76), given the fetch
outcome: find the first `Patient`-typed entry of the bundle
(`find_map`), return it with the full bundle, or fail with the dedicated
"No patient found" error. -/
def get_patient_details : FetchOutcome → Except PatientDetailsError (Patient × MixedBundle)
  | .transportError msg => .error (.transport msg)
  | .deserializationError msg => .error (.deserialization msg)
  | .fetched bundle =>
    match bundle.entry.findSome? (fun entry =>
      match entry.resource with
      | .patient p => some p
      | _ => Option.none) with
    | some patient => .ok (patient, bundle)
    | Option.none => .error .noPatientFound

/-! ## JSON deserialization model (serde + serde_json over `src/fhir.rs`)

The wire format: JSON bodies; unknown object fields are ignored (serde's
default), `Option` fields treat a missing or `null` field as `None`,
missing required fields are errors, and any entry error fails the whole
deserialization.  JSON numbers are modelled by `Rat`. -/

/-- A JSON value. -/
inductive Json where
  | null
  | bool (b : Bool)
  | num (q : Rat)
  | str (s : String)
  | arr (elems : List Json)
  | obj (fields : List (String × Json))

/-- Look up a field of a JSON object by name (first occurrence). -/
def getField (fields : List (String × Json)) (name : String) : Option Json :=
  (fields.find? (fun f => f.1 == name)).map (fun f => f.2)

/-- Deserialize a `String`. -/
def parseString : Json → Except String String
  | .str s => .ok s
  | _ => .error "expected string"

/-- Deserialize a `bool`. -/
def parseBool : Json → Except String Bool
  | .bool b => .ok b
  | _ => .error "expected bool"

/-- Deserialize a number (`f64` modelled by `Rat`). -/
def parseNum : Json → Except String Rat
  | .num q => .ok q
  | _ => .error "expected number"

/-- The numeric value of a decimal digit. -/
def digitVal (c : Char) : Option Nat :=
  if c.isDigit then some (c.toNat - 48) else Option.none

/-- `jiff::Timestamp`'s string deserialization, modelled for the UTC
second-precision ISO-8601 form `YYYY-MM-DDThh:mm:ssZ`.  The produced `Int`
is the positional encoding `((((y·100+mo)·100+d)·100+h)·100+mi)·100+s`,
which orders the modelled instants chronologically; the program only ever
compares, sorts and day-groups timestamps, so only this order is used. -/
def parseTimestampChars : List Char → Option Timestamp
  | [y1, y2, y3, y4, '-', o1, o2, '-', d1, d2, 'T', h1, h2, ':', i1, i2, ':', s1, s2, 'Z'] => do
    let y ← (do
      let a ← digitVal y1
      let b ← digitVal y2
      let c ← digitVal y3
      let d ← digitVal y4
      pure (((a * 10 + b) * 10 + c) * 10 + d))
    let mo ← (do
      let a ← digitVal o1
      let b ← digitVal o2
      pure (a * 10 + b))
    let d ← (do
      let a ← digitVal d1
      let b ← digitVal d2
      pure (a * 10 + b))
    let h ← (do
      let a ← digitVal h1
      let b ← digitVal h2
      pure (a * 10 + b))
    let mi ← (do
      let a ← digitVal i1
      let b ← digitVal i2
      pure (a * 10 + b))
    let s ← (do
      let a ← digitVal s1
      let b ← digitVal s2
      pure (a * 10 + b))
    if 1 ≤ mo ∧ mo ≤ 12 ∧ 1 ≤ d ∧ d ≤ 31 ∧ h ≤ 23 ∧ mi ≤ 59 ∧ s ≤ 59 then
      pure (Int.ofNat (((((y * 100 + mo) * 100 + d) * 100 + h) * 100 + mi) * 100 + s))
    else
      Option.none
  | _ => Option.none

/-- Deserialize a `jiff::Timestamp` (a JSON string). -/
def parseTimestamp : Json → Except String Timestamp
  | .str s =>
    match parseTimestampChars s.data with
    | some t => .ok t
    | Option.none => .error "invalid timestamp"
  | _ => .error "expected timestamp string"

/-- An `Option<T>` struct field: missing or `null` is `None`. -/
def parseOptField {α : Type} (p : Json → Except String α)
    (fields : List (String × Json)) (name : String) : Except String (Option α) :=
  match getField fields name with
  | Option.none => .ok Option.none
  | some .null => .ok Option.none
  | some j => (p j).map some

/-- A required struct field: missing is an error. -/
def parseReqField {α : Type} (p : Json → Except String α)
    (fields : List (String × Json)) (name : String) : Except String α :=
  match getField fields name with
  | Option.none => .error ("missing field " ++ name)
  | some j => p j

/-- Deserialize a `Vec<T>`. -/
def parseList {α : Type} (p : Json → Except String α) : Json → Except String (List α)
  | .arr elems => elems.mapM p
  | _ => .error "expected array"

/-- Deserialize `HumanName` (no serde rename). -/
def parseHumanName : Json → Except String HumanName
  | .obj fields => do
    let text ← parseOptField parseString fields "text"
    let family ← parseOptField parseString fields "family"
    let given ← parseOptField (parseList parseString) fields "given"
    let pfx ← parseOptField (parseList parseString) fields "prefix"
    let sfx ← parseOptField (parseList parseString) fields "suffix"
    .ok ⟨text, family, given, pfx, sfx⟩
  | _ => .error "expected object"

/-- Deserialize `Address` (no serde rename: `postal_code` stays snake case). -/
def parseAddress : Json → Except String Address
  | .obj fields => do
    let text ← parseOptField parseString fields "text"
    let line ← parseOptField (parseList parseString) fields "line"
    let city ← parseOptField parseString fields "city"
    let district ← parseOptField parseString fields "district"
    let state ← parseOptField parseString fields "state"
    let postal_code ← parseOptField parseString fields "postal_code"
    let country ← parseOptField parseString fields "country"
    .ok ⟨text, line, city, district, state, postal_code, country⟩
  | _ => .error "expected object"

/-- Deserialize `Patient` (`rename_all = "camelCase"`). -/
def parsePatient : Json → Except String Patient
  | .obj fields => do
    let id ← parseOptField parseString fields "id"
    let name ← parseOptField (parseList parseHumanName) fields "name"
    let gender ← parseOptField parseString fields "gender"
    let birth_date ← parseOptField parseString fields "birthDate"
    let deceased_boolean ← parseOptField parseBool fields "deceasedBoolean"
    let address ← parseOptField (parseList parseAddress) fields "address"
    .ok ⟨id, name, gender, birth_date, deceased_boolean, address⟩
  | _ => .error "expected object"

/-- Deserialize `Coding` (`rename_all = "camelCase"`); client-side variant
(no code-map enrichment). -/
def parseCoding : Json → Except String Coding
  | .obj fields => do
    let system ← parseOptField parseString fields "system"
    let code ← parseOptField parseString fields "code"
    let display ← parseOptField parseString fields "display"
    let user_selected ← parseOptField parseBool fields "userSelected"
    .ok ⟨system, code, display, user_selected⟩
  | _ => .error "expected object"

/-- Deserialize `CodeableConcept`. -/
def parseCodeableConcept : Json → Except String CodeableConcept
  | .obj fields => do
    let coding ← parseOptField (parseList parseCoding) fields "coding"
    let text ← parseOptField parseString fields "text"
    .ok ⟨coding, text⟩
  | _ => .error "expected object"

/-- Deserialize `Period`. -/
def parsePeriod : Json → Except String Period
  | .obj fields => do
    let start ← parseOptField parseTimestamp fields "start"
    let end_ ← parseOptField parseTimestamp fields "end"
    .ok ⟨start, end_⟩
  | _ => .error "expected object"

/-- Deserialize `Identifier` (`r#type` serializes as `"type"`). -/
def parseIdentifier : Json → Except String Identifier
  | .obj fields => do
    let type ← parseOptField parseCodeableConcept fields "type"
    let value ← parseOptField parseString fields "value"
    .ok ⟨type, value⟩
  | _ => .error "expected object"

/-- Deserialize `Reference`. -/
def parseReference : Json → Except String Reference
  | .obj fields => do
    let reference ← parseOptField parseString fields "reference"
    let identifier ← parseOptField parseIdentifier fields "identifier"
    .ok ⟨reference, identifier⟩
  | _ => .error "expected object"

/-- Deserialize `Annotation` (`text` is required). -/
def parseAnnot : Json → Except String Annot
  | .obj fields => do
    let time ← parseOptField parseTimestamp fields "time"
    let text ← parseReqField parseString fields "text"
    .ok ⟨time, text⟩
  | _ => .error "expected object"

/-- Deserialize `Quantity`. -/
def parseQuantity : Json → Except String Quantity
  | .obj fields => do
    let value ← parseOptField parseNum fields "value"
    let comparator ← parseOptField parseString fields "comparator"
    let unit ← parseOptField parseString fields "unit"
    let system ← parseOptField parseString fields "system"
    let code ← parseOptField parseString fields "code"
    .ok ⟨value, comparator, unit, system, code⟩
  | _ => .error "expected object"

/-- Deserialize `ObservationReferenceRange`. -/
def parseObservationReferenceRange : Json → Except String ObservationReferenceRange
  | .obj fields => do
    let low ← parseOptField parseQuantity fields "low"
    let high ← parseOptField parseQuantity fields "high"
    let type ← parseOptField parseCodeableConcept fields "type"
    .ok ⟨low, high, type⟩
  | _ => .error "expected object"

/-- Deserialize `Encounter` (`status` and `class` are required). -/
def parseEncounter : Json → Except String Encounter
  | .obj fields => do
    let id ← parseOptField parseString fields "id"
    let identifier ← parseOptField (parseList parseIdentifier) fields "identifier"
    let status ← parseReqField parseString fields "status"
    let class_ ← parseReqField parseCoding fields "class"
    let type ← parseOptField (parseList parseCodeableConcept) fields "type"
    let service_type ← parseOptField parseCodeableConcept fields "serviceType"
    let period ← parseOptField parsePeriod fields "period"
    let service_provider ← parseOptField parseReference fields "serviceProvider"
    .ok ⟨id, identifier, status, class_, type, service_type, period, service_provider⟩
  | _ => .error "expected object"

/-- Deserialize `Condition` (`code` and `recordedDate` are required). -/
def parseCondition : Json → Except String Condition
  | .obj fields => do
    let id ← parseOptField parseString fields "id"
    let clinical_status ← parseOptField parseCodeableConcept fields "clinicalStatus"
    let verification_status ← parseOptField parseCodeableConcept fields "verificationStatus"
    let code ← parseReqField parseCodeableConcept fields "code"
    let body_site ← parseOptField (parseList parseCodeableConcept) fields "bodySite"
    let onset_period ← parseOptField parsePeriod fields "onsetPeriod"
    let onset_date_time ← parseOptField parseTimestamp fields "onsetDateTime"
    let recorded_date ← parseReqField parseTimestamp fields "recordedDate"
    let note ← parseOptField (parseList parseAnnot) fields "note"
    .ok ⟨id, clinical_status, verification_status, code, body_site, onset_period,
         onset_date_time, recorded_date, note⟩
  | _ => .error "expected object"

/-- Deserialize `Procedure` (`status` and `code` are required). -/
def parseProcedure : Json → Except String Procedure
  | .obj fields => do
    let id ← parseOptField parseString fields "id"
    let status ← parseReqField parseString fields "status"
    let category ← parseOptField parseCodeableConcept fields "category"
    let code ← parseReqField parseCodeableConcept fields "code"
    let performed_date_time ← parseOptField parseTimestamp fields "performedDateTime"
    let performed_period ← parseOptField parsePeriod fields "performedPeriod"
    let body_site ← parseOptField (parseList parseCodeableConcept) fields "bodySite"
    let note ← parseOptField (parseList parseAnnot) fields "note"
    .ok ⟨id, status, category, code, performed_date_time, performed_period, body_site, note⟩
  | _ => .error "expected object"

/-- Deserialize `Observation` (`identifier`, `status`, `category`, `code`
and `effectiveDateTime` are required). -/
def parseObservation : Json → Except String Observation
  | .obj fields => do
    let id ← parseOptField parseString fields "id"
    let identifier ← parseReqField (parseList parseIdentifier) fields "identifier"
    let status ← parseReqField parseString fields "status"
    let category ← parseReqField (parseList parseCodeableConcept) fields "category"
    let code ← parseReqField parseCodeableConcept fields "code"
    let encounter ← parseOptField parseReference fields "encounter"
    let effective_date_time ← parseReqField parseTimestamp fields "effectiveDateTime"
    let issued ← parseOptField parseTimestamp fields "issued"
    let value_quantity ← parseOptField parseQuantity fields "valueQuantity"
    let data_absent_reason ← parseOptField parseCodeableConcept fields "dataAbsentReason"
    let interpretation ← parseOptField (parseList parseCodeableConcept) fields "interpretation"
    let note ← parseOptField (parseList parseAnnot) fields "note"
    let method ← parseOptField parseCodeableConcept fields "method"
    let reference_range ← parseOptField (parseList parseObservationReferenceRange) fields "referenceRange"
    .ok ⟨id, identifier, status, category, code, encounter, effective_date_time, issued,
         value_quantity, data_absent_reason, interpretation, note, method, reference_range⟩
  | _ => .error "expected object"

/-- Deserialize `Resource`: serde internally tagged by `"resourceType"`
(fhir.rs lines 734–744).  A recognized tag delegates to that variant's
struct deserializer (on the same object; the tag field is ignored there);
any other *string* tag produces `Unknown` (`#[serde(other)]`); a missing
or non-string tag is an error. -/
def parseResource : Json → Except String Resource
  | .obj fields =>
    (match getField fields "resourceType" with
    | some (.str s) =>
      if s = "Patient" then (parsePatient (.obj fields)).map .patient
      else if s = "Encounter" then (parseEncounter (.obj fields)).map .encounter
      else if s = "Condition" then (parseCondition (.obj fields)).map .condition
      else if s = "Procedure" then (parseProcedure (.obj fields)).map .procedure
      else if s = "Observation" then (parseObservation (.obj fields)).map .observation
      else .ok .unknown
    | some _ => .error "resourceType must be a string"
    | Option.none => .error "missing field resourceType")
  | _ => .error "expected object"

/-- Deserialize `MixedEntry` (`resource` is required). -/
def parseMixedEntry : Json → Except String MixedEntry
  | .obj fields => do
    let resource ← parseReqField parseResource fields "resource"
    .ok ⟨resource⟩
  | _ => .error "expected object"

/-- Deserialize `MixedBundle` (`entry` is required; any failing entry
fails the whole bundle, per serde's `Vec` deserialization). -/
def parseMixedBundle : Json → Except String MixedBundle
  | .obj fields => do
    let entry ← parseReqField (parseList parseMixedEntry) fields "entry"
    .ok ⟨entry⟩
  | _ => .error "expected object"

/-! ## Example inputs used by witnesses and counterexamples -/

/-- A mixed bundle with three timeline-bearing entries (timestamps 1, 5, 5)
and one entry without a timestamp. -/
def exC1Bundle : MixedBundle :=
  ⟨[⟨.condition ⟨some "c1", Option.none, Option.none, ⟨Option.none, Option.none⟩, Option.none,
      Option.none, Option.none, (5 : Int), Option.none⟩⟩,
    ⟨.patient ⟨some "p1", Option.none, Option.none, Option.none, Option.none, Option.none⟩⟩,
    ⟨.encounter ⟨some "e1", Option.none, "finished", ⟨Option.none, Option.none, Option.none, Option.none⟩,
      Option.none, Option.none, some ⟨some (1 : Int), Option.none⟩, Option.none⟩⟩,
    ⟨.procedure ⟨some "pr1", "completed", Option.none, ⟨Option.none, Option.none⟩,
      Option.none, some ⟨some (5 : Int), Option.none⟩, Option.none, Option.none⟩⟩]⟩

/-- A mixed bundle with two timeline entries at timestamps 1 and 2. -/
def exC2Bundle : MixedBundle :=
  ⟨[⟨.condition ⟨some "c1", Option.none, Option.none, ⟨Option.none, Option.none⟩, Option.none,
      Option.none, Option.none, (1 : Int), Option.none⟩⟩,
    ⟨.condition ⟨some "c2", Option.none, Option.none, ⟨Option.none, Option.none⟩, Option.none,
      Option.none, Option.none, (2 : Int), Option.none⟩⟩]⟩

/-- Columns for the sort counterexample: a sort column and a payload column. -/
def c4cols : List Column := [⟨"k", false, false⟩, ⟨"v", false, false⟩]

/-- Two rows with identical sort-column values and distinct payloads. -/
def c4data : List (List String) := [["x", "a"], ["x", "b"]]

/-- Columns for the table-filter witness: a single categorical column. -/
def c3cols : List Column := [⟨"Gender", true, false⟩]

/-- Data for the table-filter witness. -/
def c3data : List (List String) := [["f"], ["m"]]

/-- Data for the row-identity witness. -/
def c6data : List (List String) := [["a", "1"], ["b", "2"]]

/-- A five-entry bundle JSON body: four recognized resource types and one
unrecognized one (`Medication`). -/
def ex5BundleJson : Json :=
  .obj [("entry", .arr
    [.obj [("resource", .obj [("resourceType", .str "Patient"), ("id", .str "p1")])],
     .obj [("resource", .obj [("resourceType", .str "Encounter"),
       ("status", .str "finished"), ("class", .obj [("code", .str "IMP")])])],
     .obj [("resource", .obj [("resourceType", .str "Condition"),
       ("code", .obj [("text", .str "dx")]),
       ("recordedDate", .str "2020-01-08T07:00:00Z")])],
     .obj [("resource", .obj [("resourceType", .str "Procedure"),
       ("status", .str "completed"), ("code", .obj [("text", .str "op")])])],
     .obj [("resource", .obj [("resourceType", .str "Medication"), ("id", .str "m1")])]])]

/-- The bundle `ex5BundleJson` deserializes to. -/
def ex5Parsed : MixedBundle :=
  ⟨[⟨.patient ⟨some "p1", Option.none, Option.none, Option.none, Option.none, Option.none⟩⟩,
    ⟨.encounter ⟨Option.none, Option.none, "finished",
      ⟨Option.none, some "IMP", Option.none, Option.none⟩, Option.none, Option.none,
      Option.none, Option.none⟩⟩,
    ⟨.condition ⟨Option.none, Option.none, Option.none, ⟨Option.none, some "dx"⟩,
      Option.none, Option.none, Option.none, (20200108070000 : Int), Option.none⟩⟩,
    ⟨.procedure ⟨Option.none, "completed", Option.none, ⟨Option.none, some "op"⟩,
      Option.none, Option.none, Option.none, Option.none⟩⟩,
    ⟨.unknown⟩]⟩

/-- A well-formed Patient entry. -/
def exGoodPatientEntryJson : Json :=
  .obj [("resource", .obj [("resourceType", .str "Patient"), ("id", .str "p1")])]

/-- A two-entry bundle whose second entry has a recognized resource type
(`Condition`) but is malformed: the required `recordedDate` is missing. -/
def exMalformedBundleJson : Json :=
  .obj [("entry", .arr
    [exGoodPatientEntryJson,
     .obj [("resource", .obj [("resourceType", .str "Condition"),
       ("code", .obj [("text", .str "dx")])])]])]

/-! ## Order lemmas for `charListLe` / `strLe` -/

theorem charListLe_refl : ∀ a : List Char, charListLe a a = true
  | [] => rfl
  | c :: cs => by
    simp only [charListLe, lt_irrefl, if_false]
    exact charListLe_refl cs

theorem charListLe_trans : ∀ a b c : List Char,
    charListLe a b = true → charListLe b c = true → charListLe a c = true
  | [], _, _, _, _ => rfl
  | x :: xs, [], _, hab, _ => by simp [charListLe] at hab
  | x :: xs, y :: ys, [], _, hbc => by simp [charListLe] at hbc
  | x :: xs, y :: ys, z :: zs, hab, hbc => by
    simp only [charListLe] at hab hbc ⊢
    rcases lt_trichotomy x y with hxy | hxy | hxy
    · rcases lt_trichotomy y z with hyz | hyz | hyz
      · simp [lt_trans hxy hyz]
      · subst hyz; simp [hxy]
      · rw [if_neg (asymm hyz), if_pos hyz] at hbc; exact absurd hbc (by simp)
    · subst hxy
      rw [if_neg (lt_irrefl x), if_neg (lt_irrefl x)] at hab
      rcases lt_trichotomy x z with hyz | hyz | hyz
      · simp [hyz]
      · subst hyz
        rw [if_neg (lt_irrefl x), if_neg (lt_irrefl x)] at hbc ⊢
        exact charListLe_trans xs ys zs hab hbc
      · rw [if_neg (asymm hyz), if_pos hyz] at hbc; exact absurd hbc (by simp)
    · rw [if_neg (asymm hxy), if_pos hxy] at hab; exact absurd hab (by simp)

theorem charListLe_total : ∀ a b : List Char, (charListLe a b || charListLe b a) = true
  | [], _ => by simp [charListLe]
  | _ :: _, [] => by simp [charListLe]
  | x :: xs, y :: ys => by
    simp only [charListLe]
    rcases lt_trichotomy x y with h | h | h
    · simp [h]
    · subst h
      simp only [lt_irrefl, if_false]
      exact charListLe_total xs ys
    · simp [h, asymm h]

theorem strLe_trans (a b c : String) (hab : strLe a b = true) (hbc : strLe b c = true) :
    strLe a c = true :=
  charListLe_trans a.data b.data c.data hab hbc

theorem strLe_total (a b : String) : (strLe a b || strLe b a) = true :=
  charListLe_total a.data b.data

/-! ## Stable-sort lemmas -/

theorem sortByKey_perm {α κ : Type} (key : α → κ) (le : κ → κ → Bool) (l : List α) :
    (sortByKey key le l).Perm l :=
  List.mergeSort_perm l _

theorem sortByKey_pairwise {α κ : Type} (key : α → κ) (le : κ → κ → Bool)
    (htrans : ∀ a b c, le a b = true → le b c = true → le a c = true)
    (htotal : ∀ a b, (le a b || le b a) = true) (l : List α) :
    (sortByKey key le l).Pairwise (fun a b => le (key a) (key b) = true) :=
  @List.sorted_mergeSort _ (fun a b => le (key a) (key b))
    (fun _ _ _ hab hbc => htrans _ _ _ hab hbc) (fun _ _ => htotal _ _) l

theorem sortByKey_filter_key {α κ : Type} [DecidableEq κ] (key : α → κ) (le : κ → κ → Bool)
    (htrans : ∀ a b c, le a b = true → le b c = true → le a c = true)
    (htotal : ∀ a b, (le a b || le b a) = true) (l : List α) (t : κ) :
    (sortByKey key le l).filter (fun a => decide (key a = t)) =
      l.filter (fun a => decide (key a = t)) := by
  have hrefl : ∀ a, le a a = true := fun a => by
    have h := htotal a a
    simpa using h
  have hall : ∀ x ∈ l.filter (fun a => decide (key a = t)), key x = t := by
    intro x hx
    have h := (List.mem_filter.mp hx).2
    simpa using h
  have hpw : (l.filter (fun a => decide (key a = t))).Pairwise
      (fun a b => le (key a) (key b) = true) :=
    List.pairwise_of_forall_mem_list (fun a ha b hb => by
      rw [hall a ha, hall b hb]; exact hrefl t)
  have hsub : (l.filter (fun a => decide (key a = t))).Sublist (sortByKey key le l) :=
    @List.sublist_mergeSort _ (fun a b => le (key a) (key b)) l
      (fun a b c hab hbc => htrans _ _ _ hab hbc) (fun a b => htotal _ _)
      _ hpw (List.filter_sublist l)
  have hsub2 : (l.filter (fun a => decide (key a = t))).Sublist
      ((sortByKey key le l).filter (fun a => decide (key a = t))) := by
    have h2 := hsub.filter (fun a => decide (key a = t))
    rwa [List.filter_filter, List.filter_congr (fun x _ => Bool.and_self _)] at h2
  have hlen : ((sortByKey key le l).filter (fun a => decide (key a = t))).length =
      (l.filter (fun a => decide (key a = t))).length :=
    ((sortByKey_perm key le l).filter _).length_eq
  exact (hsub2.eq_of_length hlen.symm).symm

/-! ## Timeline helper lemmas -/

theorem circularTupleWindows_map_fst {α : Type} (l : List α) :
    (circularTupleWindows l).map Prod.fst = l := by
  cases l with
  | nil => rfl
  | cons x xs =>
    show ((x :: xs).zip (xs ++ [x])).map Prod.fst = x :: xs
    exact List.map_fst_zip _ _ (by simp)

theorem renderedTimeline_eq (b : MixedBundle) : renderedTimeline b = timelineEntries b :=
  circularTupleWindows_map_fst _

theorem circularTupleWindows_length {α : Type} (l : List α) :
    (circularTupleWindows l).length = l.length := by
  cases l with
  | nil => rfl
  | cons x xs =>
    show ((x :: xs).zip (xs ++ [x])).length = (x :: xs).length
    simp [List.length_zip]

theorem circularTupleWindows_getElem? {α : Type} (l : List α) (i : Nat) (a a' : α)
    (ha : l[i]? = some a) (ha' : l[i + 1]? = some a') :
    (circularTupleWindows l)[i]? = some (a, a') := by
  cases l with
  | nil => simp at ha
  | cons x xs =>
    show ((x :: xs).zip (xs ++ [x]))[i]? = some (a, a')
    rw [List.getElem?_zip_eq_some]
    refine ⟨ha, ?_⟩
    have hlt : i < xs.length := by
      have h := ha'
      rw [List.getElem?_cons_succ] at h
      exact (List.getElem?_eq_some.mp h).1
    rw [List.getElem?_append]
    rw [if_pos hlt]
    rw [← List.getElem?_cons_succ (a := x)]
    exact ha'

theorem circularTupleWindows_getLast {α : Type} (l : List α) (x y : α)
    (hhead : l.head? = some x) (hlast : l.getLast? = some y) :
    (circularTupleWindows l).getLast? = some (y, x) := by
  cases l with
  | nil => simp at hhead
  | cons h t =>
    have hx : h = x := by simpa using hhead
    subst hx
    show ((h :: t).zip (t ++ [h])).getLast? = some (y, h)
    rw [List.getLast?_eq_getElem?]
    have hlen : ((h :: t).zip (t ++ [h])).length = t.length + 1 := by
      simp [List.length_zip]
    rw [hlen]
    simp only [Nat.add_sub_cancel]
    rw [List.getElem?_zip_eq_some]
    constructor
    · rw [List.getLast?_eq_getElem?] at hlast
      simpa using hlast
    · rw [List.getElem?_append]
      rw [if_neg (lt_irrefl t.length)]
      simp

theorem intLeDecide_trans : ∀ x y z : Int,
    decide (x ≤ y) = true → decide (y ≤ z) = true → decide (x ≤ z) = true :=
  fun _ _ _ hxy hyz =>
    decide_eq_true (le_trans (of_decide_eq_true hxy) (of_decide_eq_true hyz))

theorem intLeDecide_total : ∀ x y : Int, (decide (x ≤ y) || decide (y ≤ x)) = true := by
  intro x y
  rcases le_total x y with h | h
  · simp [h]
  · simp [h]

/-- C1: For every mixed bundle, the rendered patient timeline contains
exactly those bundle entries whose resource carries a non-null timeline
timestamp (Encounter: `period.start`; Condition: `recordedDate`;
Procedure: `performedPeriod.start` else `performedDateTime`; Observation:
`effectiveDateTime`); the output is ordered non-decreasing by that
timestamp, entries without a timestamp never appear, and any two retained
entries with equal timestamps keep the relative order they had in the
input bundle. -/
theorem claim_C1_timeline_assembly (b : MixedBundle) :
    (renderedTimeline b).Perm
      (b.entry.filterMap (fun e => (e.resource.timeline_timestamp).map (fun t => (e, t))))
    ∧ (renderedTimeline b).Pairwise (fun p q => p.2 ≤ q.2)
    ∧ (∀ t : Timestamp,
        (renderedTimeline b).filter (fun p => decide (p.2 = t)) =
          (b.entry.filterMap
            (fun e => (e.resource.timeline_timestamp).map (fun t' => (e, t')))).filter
            (fun p => decide (p.2 = t)))
    ∧ (∀ e : MixedEntry, e.resource.timeline_timestamp = Option.none →
        ∀ t : Timestamp, (e, t) ∉ renderedTimeline b)
    ∧ (∀ e : Encounter,
        (Resource.encounter e).timeline_timestamp = e.period.bind (fun p => p.start))
    ∧ (∀ c : Condition, (Resource.condition c).timeline_timestamp = some c.recorded_date)
    ∧ (∀ pr : Procedure, ∀ t : Timestamp,
        pr.performed_period.bind (fun per => per.start) = some t →
        (Resource.procedure pr).timeline_timestamp = some t)
    ∧ (∀ pr : Procedure,
        pr.performed_period.bind (fun per => per.start) = Option.none →
        (Resource.procedure pr).timeline_timestamp = pr.performed_date_time)
    ∧ (∀ o : Observation,
        (Resource.observation o).timeline_timestamp = some o.effective_date_time) := by
  rw [renderedTimeline_eq]
  refine ⟨?_, ?_, ?_, ?_, fun _ => rfl, fun _ => rfl, ?_, ?_, fun _ => rfl⟩
  · exact sortByKey_perm _ _ _
  · exact (sortByKey_pairwise _ _ intLeDecide_trans intLeDecide_total _).imp
      (fun h => of_decide_eq_true h)
  · intro t
    exact sortByKey_filter_key _ _ intLeDecide_trans intLeDecide_total _ t
  · intro e hnone t hmem
    have hm : (e, t) ∈ b.entry.filterMap
        (fun e' => (e'.resource.timeline_timestamp).map (fun t' => (e', t'))) :=
      List.mem_mergeSort.mp hmem
    obtain ⟨a, _, hfa⟩ := List.mem_filterMap.mp hm
    obtain ⟨t', ht', heq⟩ := Option.map_eq_some'.mp hfa
    have ha1 : a = e := congrArg Prod.fst heq
    rw [ha1, hnone] at ht'
    exact Option.noConfusion ht'
  · intro pr t h
    show Resource.timeline_timestamp _ = _
    simp only [Resource.timeline_timestamp, Resource.timeline_event, Procedure.timestamp, h]
  · intro pr h
    show Resource.timeline_timestamp _ = _
    simp only [Resource.timeline_timestamp, Resource.timeline_event, Procedure.timestamp, h]

theorem claim_C1_timeline_assembly_witness :
    (renderedTimeline exC1Bundle).Pairwise (fun p q => p.2 ≤ q.2)
    ∧ (⟨Resource.patient ⟨some "p1", Option.none, Option.none, Option.none, Option.none,
        Option.none⟩⟩, (3 : Int)) ∉ renderedTimeline exC1Bundle :=
  ⟨(claim_C1_timeline_assembly exC1Bundle).2.1,
   (claim_C1_timeline_assembly exC1Bundle).2.2.2.1
     ⟨Resource.patient ⟨some "p1", Option.none, Option.none, Option.none, Option.none,
       Option.none⟩⟩ rfl 3⟩

/-- C2: For every timeline of n ≥ 1 sorted entries, a day-boundary heading
is emitted between consecutive entries i and i+1 iff the calendar date, in
the system's local time zone, of entry i+1's timestamp is strictly greater
than that of entry i's timestamp; and no visible boundary is ever emitted
for the wraparound pair formed by the last entry and the first entry.
The instant-to-local-calendar-date conversion is any monotone `localDate`
(a later instant never has an earlier civil date in a fixed zone). -/
theorem claim_C2_day_boundaries (localDate : Timestamp → Int) (hmono : Monotone localDate)
    (b : MixedBundle) :
    (∀ (i : Nat) (a a' : Timestamp),
      ((timelineEntries b).map (fun p => p.2))[i]? = some a →
      ((timelineEntries b).map (fun p => p.2))[i + 1]? = some a' →
      (dayBoundaries localDate b)[i]? = some (decide (localDate a' > localDate a)))
    ∧ (timelineEntries b ≠ [] → (dayBoundaries localDate b).getLast? = some false) := by
  constructor
  · intro i a a' ha ha'
    rw [List.getElem?_map] at ha ha'
    obtain ⟨p, hp, hpa⟩ := Option.map_eq_some'.mp ha
    obtain ⟨p', hp', hpa'⟩ := Option.map_eq_some'.mp ha'
    have hwin := circularTupleWindows_getElem? (timelineEntries b) i p p' hp hp'
    show ((circularTupleWindows (timelineEntries b)).map
      (fun q => decide (localDate q.2.2 > localDate q.1.2)))[i]? = _
    rw [List.getElem?_map, hwin]
    simp only [Option.map_some']
    rw [hpa, hpa']
  · intro hne
    have hpw : (timelineEntries b).Pairwise (fun p q => p.2 ≤ q.2) :=
      (sortByKey_pairwise _ _ intLeDecide_trans intLeDecide_total _).imp
        (fun h => of_decide_eq_true h)
    set l := timelineEntries b with hldef
    have hpos : 0 < l.length := List.length_pos.mpr hne
    have hsub : l.length - 1 < l.length := Nat.sub_lt hpos one_pos
    obtain ⟨x, hx⟩ : ∃ x, l[0]? = some x := ⟨_, List.getElem?_eq_getElem hpos⟩
    obtain ⟨pn, hpn⟩ : ∃ pn, l[l.length - 1]? = some pn := ⟨_, List.getElem?_eq_getElem hsub⟩
    have hhd : l.head? = some x := by rw [List.head?_eq_getElem?]; exact hx
    have hlast : l.getLast? = some pn := by rw [List.getLast?_eq_getElem?]; exact hpn
    have hwin := circularTupleWindows_getLast l x pn hhd hlast
    have hle : x.2 ≤ pn.2 := by
      rcases Nat.eq_zero_or_pos (l.length - 1) with hz | hpos'
      · rw [hz, hx] at hpn
        injection hpn with hxpn
        rw [hxpn]
      · have h0 := (List.pairwise_iff_getElem.mp hpw) 0 (l.length - 1) hpos hsub hpos'
        have hx' : l[0] = x := by
          have h1 := List.getElem?_eq_getElem hpos
          rw [hx] at h1
          injection h1 with h2
          exact h2.symm
        have hpn' : l[l.length - 1] = pn := by
          have h1 := List.getElem?_eq_getElem hsub
          rw [hpn] at h1
          injection h1 with h2
          exact h2.symm
        rw [hx', hpn'] at h0
        exact h0
    show ((circularTupleWindows l).map
      (fun q => decide (localDate q.2.2 > localDate q.1.2))).getLast? = some false
    rw [List.getLast?_map, hwin]
    simp only [Option.map_some']
    have : decide (localDate x.2 > localDate pn.2) = false :=
      decide_eq_false (not_lt.mpr (hmono hle))
    rw [this]

theorem claim_C2_day_boundaries_witness :
    (dayBoundaries (fun t => t) exC2Bundle)[0]? = some true
    ∧ (dayBoundaries (fun t => t) exC2Bundle).getLast? = some false := by
  have hte : timelineEntries exC2Bundle =
      [(⟨.condition ⟨some "c1", Option.none, Option.none, ⟨Option.none, Option.none⟩,
          Option.none, Option.none, Option.none, (1 : Int), Option.none⟩⟩, (1 : Int)),
       (⟨.condition ⟨some "c2", Option.none, Option.none, ⟨Option.none, Option.none⟩,
          Option.none, Option.none, Option.none, (2 : Int), Option.none⟩⟩, (2 : Int))] := by
    show List.mergeSort _ _ = _
    exact List.mergeSort_of_sorted (by decide)
  have h := claim_C2_day_boundaries (fun t => t) (fun _ _ hab => hab) exC2Bundle
  constructor
  · have h1 := h.1 0 1 2 (by rw [hte]; rfl) (by rw [hte]; rfl)
    simpa using h1
  · exact h.2 (by rw [hte]; simp)

/-- C5: In the drag-and-drop column reorder, for every visible-column list
and every drop on gap index j while column index i is being dragged, the
list is updated by removing the column at i and reinserting it at index j
if j < i, else at j - 1; the gaps j = i and j = i + 1 are not valid drop
targets (no drop zone is rendered there).  In particular, with visible
columns [A,B,C], dragging A and dropping into gap index 2 yields [B,A,C]. -/
theorem claim_C5_drag_reorder :
    (∀ (cols : List String) (i j : Nat) (c : String), cols.get? i = some c →
      j ≠ i → j ≠ i + 1 →
      dropOnGap cols i j = (cols.eraseIdx i).insertIdx (if j < i then j else j - 1) c)
    ∧ (∀ len i : Nat, i ∉ dropZones len i ∧ (i + 1) ∉ dropZones len i)
    ∧ dropOnGap ["A", "B", "C"] 0 2 = ["B", "A", "C"] := by
  refine ⟨?_, ?_, rfl⟩
  · intro cols i j c hc hji _
    show (match cols.get? i with
      | Option.none => cols
      | some col => (cols.eraseIdx i).insertIdx (if j > i then j - 1 else j) col) = _
    rw [hc]
    rcases lt_trichotomy j i with h | h | h
    · rw [if_neg (by omega), if_pos h]
    · exact absurd h hji
    · rw [if_pos h, if_neg (by omega)]
  · intro len i
    constructor
    · simp [dropZones, List.mem_filter]
    · simp [dropZones, List.mem_filter]

theorem claim_C5_drag_reorder_witness :
    dropOnGap ["A", "B", "C"] 1 0 = ["B", "A", "C"] := by
  have h := claim_C5_drag_reorder.1 ["A", "B", "C"] 1 0 "B" rfl (by decide) (by decide)
  simpa using h

/-- C7: For every CodeableConcept and every system string s,
`code_in_system(s)` returns the code of the first coding whose system
equals s, and returns absence if no coding in that concept matches s,
including when the coding list is empty or null. -/
theorem claim_C7_code_in_system (cc : CodeableConcept) (s : String) :
    (∀ (l₁ : List Coding) (c : Coding) (l₂ : List Coding),
      cc.coding = some (l₁ ++ c :: l₂) → (∀ x ∈ l₁, x.system ≠ some s) →
      c.system = some s → cc.code_in_system s = c.code)
    ∧ ((∀ codings, cc.coding = some codings → ∀ x ∈ codings, x.system ≠ some s) →
      cc.code_in_system s = Option.none) := by
  constructor
  · intro l₁ c l₂ hcc hl₁ hcs
    unfold CodeableConcept.code_in_system
    rw [hcc]
    show ((l₁ ++ c :: l₂).find? (fun coding => coding.system == some s)).bind
      (fun coding => coding.code) = c.code
    have hnone : l₁.find? (fun coding => coding.system == some s) = Option.none :=
      List.find?_eq_none.mpr (fun x hx => by
        simp only [beq_iff_eq]
        exact hl₁ x hx)
    rw [List.find?_append, hnone, Option.none_or,
      List.find?_cons_of_pos _ (by simp only [beq_iff_eq]; exact hcs)]
    rfl
  · intro hall
    unfold CodeableConcept.code_in_system
    cases hcc : cc.coding with
    | none => rfl
    | some codings =>
      show (codings.find? (fun coding => coding.system == some s)).bind
        (fun coding => coding.code) = Option.none
      rw [List.find?_eq_none.mpr (fun x hx => by
        simp only [beq_iff_eq]
        exact hall codings hcc x hx)]
      rfl

theorem claim_C7_code_in_system_witness :
    CodeableConcept.code_in_system
      ⟨some [⟨some "other", some "X", Option.none, Option.none⟩,
             ⟨some "sys", some "C50", Option.none, Option.none⟩], Option.none⟩ "sys"
      = some "C50" := by
  have h := (claim_C7_code_in_system
    ⟨some [⟨some "other", some "X", Option.none, Option.none⟩,
           ⟨some "sys", some "C50", Option.none, Option.none⟩], Option.none⟩ "sys").1
    [⟨some "other", some "X", Option.none, Option.none⟩]
    ⟨some "sys", some "C50", Option.none, Option.none⟩ [] rfl
    (by intro x hx; rw [List.mem_singleton.mp hx]; decide) rfl
  simpa using h

theorem findSome?_append_first {α β : Type} (f : α → Option β) :
    ∀ (l₁ : List α) (e : α) (l₂ : List α) (v : β),
      (∀ x ∈ l₁, f x = Option.none) → f e = some v →
      (l₁ ++ e :: l₂).findSome? f = some v
  | [], e, l₂, v, _, hv => by rw [List.nil_append, List.findSome?_cons, hv]
  | x :: xs, e, l₂, v, hnone, hv => by
    rw [List.cons_append, List.findSome?_cons, hnone x (List.mem_cons_self x xs)]
    exact findSome?_append_first f xs e l₂ v
      (fun y hy => hnone y (List.mem_cons_of_mem x hy)) hv

/-- C9: For every successfully fetched and parsed `$everything` bundle,
`get_patient_details` returns the dedicated "No patient found" error
exactly when the bundle contains no Patient-typed entry, and this error is
distinct from a transport/HTTP or whole-bundle deserialization failure;
when a Patient entry is present, the function returns the first such
patient together with the full bundle. -/
theorem claim_C9_patient_details :
    (∀ b : MixedBundle,
      get_patient_details (.fetched b) = .error .noPatientFound ↔
        ∀ e ∈ b.entry, ∀ p : Patient, e.resource ≠ .patient p)
    ∧ (∀ (b : MixedBundle) (l₁ : List MixedEntry) (e : MixedEntry) (l₂ : List MixedEntry)
        (p : Patient), b.entry = l₁ ++ e :: l₂ →
        (∀ x ∈ l₁, ∀ q : Patient, x.resource ≠ .patient q) → e.resource = .patient p →
        get_patient_details (.fetched b) = .ok (p, b))
    ∧ (∀ msg, get_patient_details (.transportError msg) = .error (.transport msg))
    ∧ (∀ msg, get_patient_details (.deserializationError msg) = .error (.deserialization msg))
    ∧ (∀ msg, PatientDetailsError.transport msg ≠ .noPatientFound)
    ∧ (∀ msg, PatientDetailsError.deserialization msg ≠ .noPatientFound) := by
  have hresnone : ∀ e : MixedEntry, (∀ p : Patient, e.resource ≠ .patient p) ↔
      (match e.resource with
        | .patient p => some p
        | _ => Option.none) = (Option.none : Option Patient) := by
    intro e
    cases h : e.resource <;> simp [h]
  refine ⟨?_, ?_, fun _ => rfl, fun _ => rfl, fun _ => by simp, fun _ => by simp⟩
  · intro b
    show (match b.entry.findSome? (fun entry =>
        match entry.resource with
        | .patient p => some p
        | _ => Option.none) with
      | some patient => Except.ok (patient, b)
      | Option.none => Except.error PatientDetailsError.noPatientFound) = _ ↔ _
    constructor
    · intro h
      cases hf : b.entry.findSome? (fun entry =>
          match entry.resource with
          | .patient p => some p
          | _ => Option.none) with
      | some q => rw [hf] at h; exact absurd h (by simp)
      | none =>
        intro e he p
        have hnn := (List.findSome?_eq_none_iff.mp hf) e he
        intro hcontra
        rw [hcontra] at hnn
        exact Option.noConfusion hnn
    · intro h
      have hf : b.entry.findSome? (fun entry =>
          match entry.resource with
          | .patient p => some p
          | _ => Option.none) = Option.none :=
        List.findSome?_eq_none_iff.mpr (fun e he => (hresnone e).mp (h e he))
      rw [hf]
  · intro b l₁ e l₂ p hb hl₁ hp
    show (match b.entry.findSome? (fun entry =>
        match entry.resource with
        | .patient q => some q
        | _ => Option.none) with
      | some patient => Except.ok (patient, b)
      | Option.none => Except.error PatientDetailsError.noPatientFound) = _
    have hf : b.entry.findSome? (fun entry =>
        match entry.resource with
        | .patient q => some q
        | _ => Option.none) = some p := by
      rw [hb]
      exact findSome?_append_first _ l₁ e l₂ p
        (fun x hx => (hresnone x).mp (hl₁ x hx)) (by rw [hp])
    rw [hf]

theorem claim_C9_patient_details_witness :
    get_patient_details (.fetched ⟨[⟨.unknown⟩]⟩) = .error .noPatientFound
    ∧ get_patient_details (.fetched ⟨[⟨.unknown⟩,
        ⟨.patient ⟨some "p9", Option.none, Option.none, Option.none, Option.none,
          Option.none⟩⟩]⟩) =
      .ok (⟨some "p9", Option.none, Option.none, Option.none, Option.none, Option.none⟩,
        ⟨[⟨.unknown⟩, ⟨.patient ⟨some "p9", Option.none, Option.none, Option.none,
          Option.none, Option.none⟩⟩]⟩) :=
  ⟨(claim_C9_patient_details.1 ⟨[⟨.unknown⟩]⟩).mpr
     (by intro e he p; rw [List.mem_singleton.mp he]; simp),
   claim_C9_patient_details.2.1 _ [⟨.unknown⟩] _ [] _ rfl
     (by intro x hx q; rw [List.mem_singleton.mp hx]; simp) rfl⟩

/-- C10: For every Resource value, the timeline-event capability
(`Resource::timeline_event`) returns Some exactly when the resource is an
Encounter, Condition, Procedure or Observation (Patient and Unknown always
yield None); consequently, in the timeline rendering match that runs only
on entries that passed the timestamp filter, the catch-all
`unreachable!()` branch is never reached. -/
theorem claim_C10_timeline_capability :
    (∀ r : Resource, (r.timeline_event).isSome = true ↔
      ((∃ e, r = .encounter e) ∨ (∃ c, r = .condition c) ∨
       (∃ p, r = .procedure p) ∨ (∃ o, r = .observation o)))
    ∧ (∀ p : Patient, (Resource.patient p).timeline_event = Option.none)
    ∧ Resource.unknown.timeline_event = Option.none
    ∧ (∀ r : Resource, (r.timeline_timestamp).isSome = true →
        (renderTimelineCard r).isSome = true)
    ∧ (∀ b : MixedBundle, ∀ q ∈ renderedTimeline b,
        (renderTimelineCard q.1.resource).isSome = true) := by
  refine ⟨?_, fun _ => rfl, rfl, ?_, ?_⟩
  · intro r
    cases r <;> simp [Resource.timeline_event]
  · intro r _
    cases r with
    | patient p => simp [Resource.timeline_timestamp, Resource.timeline_event] at *
    | unknown => simp [Resource.timeline_timestamp, Resource.timeline_event] at *
    | encounter e => rfl
    | condition c => rfl
    | procedure p => rfl
    | observation o => rfl
  · intro b q hq
    rw [renderedTimeline_eq] at hq
    have hm := List.mem_mergeSort.mp hq
    obtain ⟨a, _, hfa⟩ := List.mem_filterMap.mp hm
    obtain ⟨t', ht', heq⟩ := Option.map_eq_some'.mp hfa
    have ha1 : a = q.1 := congrArg Prod.fst heq
    rw [ha1] at ht'
    cases hr : q.1.resource with
    | patient p => rw [hr] at ht'; exact Option.noConfusion ht'
    | unknown => rw [hr] at ht'; exact Option.noConfusion ht'
    | encounter e => rfl
    | condition c => rfl
    | procedure p => rfl
    | observation o => rfl

theorem claim_C10_timeline_capability_witness :
    (renderTimelineCard (.condition ⟨some "c1", Option.none, Option.none,
      ⟨Option.none, Option.none⟩, Option.none, Option.none, Option.none, (5 : Int),
      Option.none⟩)).isSome = true :=
  claim_C10_timeline_capability.2.2.2.1 _ rfl

/-! ## Table pipeline lemmas -/

theorem mem_enum_iff {α : Type} {l : List α} {q : Nat × α} :
    q ∈ l.enum ↔ l[q.1]? = some q.2 := by
  rw [List.mem_iff_getElem?]
  constructor
  · rintro ⟨n, hn⟩
    rw [List.getElem?_enum] at hn
    obtain ⟨a, ha, hq⟩ := Option.map_eq_some'.mp hn
    rw [← hq]
    exact ha
  · intro h
    exact ⟨q.1, by rw [List.getElem?_enum, h]; rfl⟩

theorem strToLower_eq_empty_iff (s : String) : strToLower s = "" ↔ s = "" := by
  constructor
  · intro h
    have hd : s.data.map Char.toLower = [] := congrArg String.data h
    cases s with
    | mk data =>
      cases data with
      | nil => rfl
      | cons c cs => simp at hd
  · intro h
    rw [h]
    rfl

theorem cellFilter_iff (cst : List String) (ccf : List (List String)) (j : Nat)
    (cell : String) :
    cellFilter cst ccf j cell = true ↔
      (((cst.get? j).getD "" = "" ∧ (ccf.get? j).getD [] = [])
       ∨ ((cst.get? j).getD "" ≠ "" ∧
          strContains (strToLower cell) (strToLower ((cst.get? j).getD "")) = true)
       ∨ ((ccf.get? j).getD [] ≠ [] ∧ cell ∈ (ccf.get? j).getD [])) := by
  unfold cellFilter
  simp only [Bool.or_eq_true, Bool.and_eq_true, decide_eq_true_eq, Bool.not_eq_true',
    decide_eq_false_iff_not, List.elem_eq_mem, strToLower_eq_empty_iff]
  tauto

theorem filteredData_mem {columns : List Column} {search_text : String}
    {custom_columns : List String} {sort_by : String} {sort_ascending : Bool}
    {cst : List String} {ccf : List (List String)} {data : List (List String)}
    {q : Nat × List String} :
    q ∈ filteredData columns search_text custom_columns sort_by sort_ascending cst ccf data ↔
    ∃ row, data[q.1]? = some row ∧ globalSearchFilter search_text row = true ∧
      columnFilters cst ccf row = true ∧ q.2 = projectRow columns custom_columns row := by
  have base : q ∈ (sortByKey (fun p => rowSortKey columns sort_by p.2) strLe
      (((data.enum).filter (fun p => globalSearchFilter search_text p.2)).filter
        (fun p => columnFilters cst ccf p.2))).map
        (fun p => (p.1, projectRow columns custom_columns p.2)) ↔
      (∃ row, data[q.1]? = some row ∧ globalSearchFilter search_text row = true ∧
        columnFilters cst ccf row = true ∧ q.2 = projectRow columns custom_columns row) := by
    rw [List.mem_map]
    constructor
    · rintro ⟨p, hp, hpq⟩
      have hp2 := List.mem_mergeSort.mp hp
      have hcf := (List.mem_filter.mp hp2).2
      have hp3 := (List.mem_filter.mp hp2).1
      have hgf := (List.mem_filter.mp hp3).2
      have hen := mem_enum_iff.mp (List.mem_filter.mp hp3).1
      refine ⟨p.2, ?_, hgf, hcf, ?_⟩
      · rw [← hpq]
        exact hen
      · rw [← hpq]
    · rintro ⟨row, hrow, hg, hc, hq2⟩
      refine ⟨(q.1, row), ?_, ?_⟩
      · apply List.mem_mergeSort.mpr
        exact List.mem_filter.mpr ⟨List.mem_filter.mpr ⟨mem_enum_iff.mpr hrow, hg⟩, hc⟩
      · rw [← hq2]
  cases sort_ascending with
  | true => exact base
  | false =>
    show q ∈ (List.map _ _).reverse ↔ _
    rw [List.mem_reverse]
    exact base

/-- C6: For every data set and every combination of global search text,
per-column filters, sort column and direction, and hidden or reordered
columns, the row-detail callback invoked for a displayed row receives that
row's index into the original unfiltered data: the first component of each
displayed pair (the value handed to `ondetail`) indexes, in the original
`data`, a row that passes the filters and whose projection is exactly the
displayed row. -/
theorem claim_C6_row_identity (columns : List Column) (search_text : String)
    (custom_columns : List String) (sort_by : String) (sort_ascending : Bool)
    (cst : List String) (ccf : List (List String)) (data : List (List String)) :
    ∀ q ∈ filteredData columns search_text custom_columns sort_by sort_ascending
        cst ccf data,
      ∃ row, data[q.1]? = some row
        ∧ globalSearchFilter search_text row = true
        ∧ columnFilters cst ccf row = true
        ∧ q.2 = projectRow columns custom_columns row := by
  intro q hq
  exact filteredData_mem.mp hq

theorem claim_C6_row_identity_witness :
    ∃ row, c6data[(1, ["b", "2"]).1]? = some row
      ∧ globalSearchFilter "" row = true
      ∧ columnFilters ["", ""] [[], []] row = true
      ∧ (1, ["b", "2"]).2 = projectRow c4cols ["k", "v"] row := by
  have hfd : filteredData c4cols "" ["k", "v"] "k" true ["", ""] [[], []] c6data =
      [(0, ["a", "1"]), (1, ["b", "2"])] := by
    show (List.mergeSort (((c6data.enum).filter (fun p => globalSearchFilter "" p.2)).filter
        (fun p => columnFilters ["", ""] [[], []] p.2)) _).map
        (fun p => (p.1, projectRow c4cols ["k", "v"] p.2)) = _
    have h1 : ((c6data.enum).filter (fun p => globalSearchFilter "" p.2)).filter
        (fun p => columnFilters ["", ""] [[], []] p.2) =
        [(0, ["a", "1"]), (1, ["b", "2"])] := rfl
    rw [h1, List.mergeSort_of_sorted (by decide)]
    rfl
  exact claim_C6_row_identity c4cols "" ["k", "v"] "k" true ["", ""] [[], []] c6data
    (1, ["b", "2"]) (by rw [hfd]; simp)

/-- C3: For every table data set and filter state (with one filter slot
per column and rows shaped like the columns, as the view guarantees), a
row is displayed if and only if (1) at least one of its cells
case-insensitively contains the global search text, and (2) for every
column, that column's text filter is empty and its categorical filter is
empty, or the text filter is non-empty and the cell (case-insensitively)
contains it, or the categorical filter is non-empty and the cell is a
member of the filter set. -/
theorem claim_C3_row_filter (columns : List Column) (search_text : String)
    (custom_columns : List String) (sort_by : String) (sort_ascending : Bool)
    (cst : List String) (ccf : List (List String)) (data : List (List String))
    (hcst : cst.length = columns.length) (hccf : ccf.length = columns.length)
    (hrows : ∀ row ∈ data, row.length = columns.length) :
    ∀ i : Nat,
      (∃ r, (i, r) ∈ filteredData columns search_text custom_columns sort_by
        sort_ascending cst ccf data) ↔
      ∃ row, data[i]? = some row
        ∧ (∃ cell ∈ row, strContains (strToLower cell) (strToLower search_text) = true)
        ∧ (∀ j, j < columns.length → ∀ cell, row.get? j = some cell →
            (((cst.get? j).getD "" = "" ∧ (ccf.get? j).getD [] = [])
             ∨ ((cst.get? j).getD "" ≠ "" ∧
                strContains (strToLower cell) (strToLower ((cst.get? j).getD "")) = true)
             ∨ ((ccf.get? j).getD [] ≠ [] ∧ cell ∈ (ccf.get? j).getD []))) := by
  intro i
  constructor
  · rintro ⟨r, hr⟩
    obtain ⟨row, hrow, hg, hc, _⟩ := filteredData_mem.mp hr
    refine ⟨row, hrow, ?_, ?_⟩
    · exact List.any_eq_true.mp hg
    · intro j _ cell hcell
      have hmem : (j, cell) ∈ row.enum := by
        apply mem_enum_iff.mpr
        rw [← List.get?_eq_getElem?]
        exact hcell
      have hall := List.all_eq_true.mp hc (j, cell) hmem
      exact (cellFilter_iff cst ccf j cell).mp hall
  · rintro ⟨row, hrow, hex, hcols⟩
    refine ⟨projectRow columns custom_columns row,
      filteredData_mem.mpr ⟨row, hrow, ?_, ?_, rfl⟩⟩
    · exact List.any_eq_true.mpr hex
    · apply List.all_eq_true.mpr
      rintro ⟨j, cell⟩ hjc
      have hcell := mem_enum_iff.mp hjc
      have hj : j < columns.length := by
        have hb := (List.getElem?_eq_some.mp hcell).1
        rw [hrows row (List.getElem?_mem hrow)] at hb
        exact hb
      exact (cellFilter_iff cst ccf j cell).mpr
        (hcols j hj cell (by rw [List.get?_eq_getElem?]; exact hcell))

theorem claim_C3_row_filter_witness :
    ∃ r, ((0 : Nat), r) ∈ filteredData c3cols "" ["Gender"] "Gender" true
      [""] [["f"]] c3data := by
  apply (claim_C3_row_filter c3cols "" ["Gender"] "Gender" true [""] [["f"]] c3data
    rfl rfl (by decide) 0).mpr
  refine ⟨["f"], rfl, ⟨"f", by simp, rfl⟩, ?_⟩
  intro j hj cell hcell
  have hj0 : j = 0 := by
    have : c3cols.length = 1 := rfl
    omega
  subst hj0
  have hc : cell = "f" := by
    injection hcell with h
    exact h.symm
  subst hc
  right
  right
  exact ⟨by decide, by decide⟩

/-- C4, counterexample: with two rows whose sort-column cells are equal
("x"), sorting descending displays them in REVERSED original order
([1, 0]), because the descending direction is implemented by reversing
the whole ascending-sorted list (table.rs lines 124–126), which also
reverses ties.  The claim's unconditional "rows with identical sort-column
values retain their original relative order" is therefore false. -/
theorem claim_C4_counterexample :
    rowSortKey c4cols "k" ["x", "a"] = rowSortKey c4cols "k" ["x", "b"]
    ∧ (filteredData c4cols "" ["k", "v"] "k" false ["", ""] [[], []] c4data).map Prod.fst
      = [1, 0] := by
  constructor
  · rfl
  · have hfd : filteredData c4cols "" ["k", "v"] "k" false ["", ""] [[], []] c4data =
        [(1, ["x", "b"]), (0, ["x", "a"])] := by
      show ((List.mergeSort (((c4data.enum).filter (fun p => globalSearchFilter "" p.2)).filter
          (fun p => columnFilters ["", ""] [[], []] p.2)) _).map
          (fun p => (p.1, projectRow c4cols ["k", "v"] p.2))).reverse = _
      have h1 : ((c4data.enum).filter (fun p => globalSearchFilter "" p.2)).filter
          (fun p => columnFilters ["", ""] [[], []] p.2) =
          [(0, ["x", "a"]), (1, ["x", "b"])] := rfl
      rw [h1, List.mergeSort_of_sorted (by decide)]
      rfl
    rw [hfd]
    rfl

/-- C4, amended: for every table data set, sort column and direction, the
ascending display is ordered lexicographically (byte order) by the sort
column's cell value with rows of identical sort-column value retaining
their original relative order from the input data; the descending display
is exactly the reverse of the ascending display (so it is ordered by the
reversed order, and tied rows appear in reverse of their original order);
the direction toggles on repeated clicks on the same column header and
resets to ascending when switching to a different column. -/
theorem claim_C4_sort_amended (columns : List Column) (search_text : String)
    (custom_columns : List String) (sort_by : String)
    (cst : List String) (ccf : List (List String)) (data : List (List String)) :
    (filteredData columns search_text custom_columns sort_by false cst ccf data =
      (filteredData columns search_text custom_columns sort_by true cst ccf data).reverse)
    ∧ (filteredData columns search_text custom_columns sort_by true cst ccf data).Pairwise
        (fun p q => strLe (rowSortKey columns sort_by ((data[p.1]?).getD []))
          (rowSortKey columns sort_by ((data[q.1]?).getD [])) = true)
    ∧ (filteredData columns search_text custom_columns sort_by false cst ccf data).Pairwise
        (fun p q => strLe (rowSortKey columns sort_by ((data[q.1]?).getD []))
          (rowSortKey columns sort_by ((data[p.1]?).getD [])) = true)
    ∧ (∀ t : String,
        (filteredData columns search_text custom_columns sort_by true cst ccf data).filter
          (fun p => decide (rowSortKey columns sort_by ((data[p.1]?).getD []) = t)) =
        ((((data.enum).filter (fun p => globalSearchFilter search_text p.2)).filter
          (fun p => columnFilters cst ccf p.2)).map
          (fun p => (p.1, projectRow columns custom_columns p.2))).filter
          (fun p => decide (rowSortKey columns sort_by ((data[p.1]?).getD []) = t)))
    ∧ (∀ h asc, sortClick h asc h = (h, !asc))
    ∧ (∀ h asc h', h' ≠ h → sortClick h asc h' = (h', true)) := by
  have hmeminner : ∀ p ∈ ((data.enum).filter (fun p => globalSearchFilter search_text p.2)).filter
      (fun p => columnFilters cst ccf p.2), data[p.1]? = some p.2 := by
    intro p hp
    exact mem_enum_iff.mp (List.mem_filter.mp (List.mem_filter.mp hp).1).1
  have hmemsorted : ∀ p ∈ sortByKey (fun p => rowSortKey columns sort_by p.2) strLe
      (((data.enum).filter (fun p => globalSearchFilter search_text p.2)).filter
        (fun p => columnFilters cst ccf p.2)), data[p.1]? = some p.2 := by
    intro p hp
    exact hmeminner p (List.mem_mergeSort.mp hp)
  have hpw2 : (sortByKey (fun p => rowSortKey columns sort_by p.2) strLe
      (((data.enum).filter (fun p => globalSearchFilter search_text p.2)).filter
        (fun p => columnFilters cst ccf p.2))).Pairwise
      (fun a b => strLe (rowSortKey columns sort_by ((data[a.1]?).getD []))
        (rowSortKey columns sort_by ((data[b.1]?).getD [])) = true) := by
    refine List.Pairwise.imp_of_mem ?_
      (sortByKey_pairwise (fun p => rowSortKey columns sort_by p.2) strLe
        strLe_trans strLe_total _)
    intro a b ha hb hr
    rw [hmemsorted a ha, hmemsorted b hb]
    exact hr
  refine ⟨rfl, ?_, ?_, ?_, ?_, ?_⟩
  · exact List.pairwise_map.mpr hpw2
  · show (((sortByKey (fun p => rowSortKey columns sort_by p.2) strLe
        (((data.enum).filter (fun p => globalSearchFilter search_text p.2)).filter
          (fun p => columnFilters cst ccf p.2))).map
        (fun p => (p.1, projectRow columns custom_columns p.2))).reverse).Pairwise _
    apply List.pairwise_reverse.mpr
    exact List.pairwise_map.mpr hpw2
  · intro t
    show ((sortByKey (fun p => rowSortKey columns sort_by p.2) strLe
        (((data.enum).filter (fun p => globalSearchFilter search_text p.2)).filter
          (fun p => columnFilters cst ccf p.2))).map
        (fun p => (p.1, projectRow columns custom_columns p.2))).filter
        (fun p => decide (rowSortKey columns sort_by ((data[p.1]?).getD []) = t)) = _
    rw [List.filter_map, List.filter_map]
    have hconv : ∀ (l : List (Nat × List String)), (∀ p ∈ l, data[p.1]? = some p.2) →
        l.filter ((fun p => decide (rowSortKey columns sort_by ((data[p.1]?).getD []) = t)) ∘
          (fun p => (p.1, projectRow columns custom_columns p.2))) =
        l.filter (fun p => decide (rowSortKey columns sort_by p.2 = t)) := by
      intro l hl
      apply List.filter_congr
      intro x hx
      show decide (rowSortKey columns sort_by ((data[x.1]?).getD []) = t)
        = decide (rowSortKey columns sort_by x.2 = t)
      rw [hl x hx]
      rfl
    rw [hconv _ hmemsorted, hconv _ hmeminner]
    exact congrArg
      (List.map (fun p : Nat × List String => (p.1, projectRow columns custom_columns p.2)))
      (sortByKey_filter_key (fun p : Nat × List String => rowSortKey columns sort_by p.2)
        strLe strLe_trans strLe_total _ t)
  · intro h asc
    simp [sortClick]
  · intro h asc h' hne
    simp only [sortClick, beq_iff_eq]
    rw [if_neg (fun hcontra => hne hcontra.symm)]

theorem claim_C4_sort_amended_witness :
    sortClick "a" true "a" = ("a", false) ∧ sortClick "a" true "b" = ("b", true) :=
  ⟨(claim_C4_sort_amended [] "" [] "" [] [] []).2.2.2.2.1 "a" true,
   (claim_C4_sort_amended [] "" [] "" [] [] []).2.2.2.2.2 "a" true "b" (by decide)⟩

/-- C8, counterexample: tolerance covers only *unrecognized* resource
types.  An entry with a recognized type (`Condition`) that is malformed
(missing its required `recordedDate`) fails the whole bundle parse, even
though the other entry of the bundle is well-formed on its own — so "a
single malformed or unsupported entry does not abort loading the rest of
the bundle" is false as stated. -/
theorem claim_C8_counterexample :
    (parseMixedBundle exMalformedBundleJson).isOk = false
    ∧ parseMixedEntry exGoodPatientEntryJson =
      .ok ⟨.patient ⟨some "p1", Option.none, Option.none, Option.none, Option.none,
        Option.none⟩⟩ :=
  ⟨rfl, rfl⟩

/-- C8, amended: an entry whose resourceType is a string other than
Patient, Encounter, Condition, Procedure, Observation deserializes to the
Unknown variant without failing the parse of the whole bundle, and Unknown
entries are silently excluded from the timeline rendering; a bundle of 5
entries of which 1 has an unrecognized resourceType yields 4 typed
resources and no parse error.  A single *unsupported* entry therefore does
not abort loading the rest of the bundle; a *malformed* entry of a
recognized resource type, however, fails the whole bundle parse. -/
theorem claim_C8_unknown_entry_amended :
    (∀ (fields : List (String × Json)) (s : String),
      getField fields "resourceType" = some (.str s) →
      s ∉ ["Patient", "Encounter", "Condition", "Procedure", "Observation"] →
      parseResource (.obj fields) = .ok .unknown)
    ∧ (∀ (b : MixedBundle) (e : MixedEntry), e.resource = .unknown →
        ∀ t : Timestamp, (e, t) ∉ renderedTimeline b)
    ∧ parseMixedBundle ex5BundleJson = .ok ex5Parsed
    ∧ ex5Parsed.entry.length = 5
    ∧ (ex5Parsed.entry.filter (fun e => !(decide (e.resource = .unknown)))).length = 4
    ∧ (ex5Parsed.entry.filter (fun e => decide (e.resource = .unknown))).length = 1 := by
  refine ⟨?_, ?_, rfl, rfl, by decide, by decide⟩
  · intro fields s hf hs
    have h1 : s ≠ "Patient" := fun h => hs (by rw [h]; simp)
    have h2 : s ≠ "Encounter" := fun h => hs (by rw [h]; simp)
    have h3 : s ≠ "Condition" := fun h => hs (by rw [h]; simp)
    have h4 : s ≠ "Procedure" := fun h => hs (by rw [h]; simp)
    have h5 : s ≠ "Observation" := fun h => hs (by rw [h]; simp)
    show (match getField fields "resourceType" with
      | some (.str s) =>
        if s = "Patient" then (parsePatient (.obj fields)).map Resource.patient
        else if s = "Encounter" then (parseEncounter (.obj fields)).map Resource.encounter
        else if s = "Condition" then (parseCondition (.obj fields)).map Resource.condition
        else if s = "Procedure" then (parseProcedure (.obj fields)).map Resource.procedure
        else if s = "Observation" then
          (parseObservation (.obj fields)).map Resource.observation
        else Except.ok Resource.unknown
      | some _ => Except.error "resourceType must be a string"
      | Option.none => Except.error "missing field resourceType") =
      Except.ok Resource.unknown
    rw [hf]
    show (if s = "Patient" then (parsePatient (.obj fields)).map Resource.patient
      else if s = "Encounter" then (parseEncounter (.obj fields)).map Resource.encounter
      else if s = "Condition" then (parseCondition (.obj fields)).map Resource.condition
      else if s = "Procedure" then (parseProcedure (.obj fields)).map Resource.procedure
      else if s = "Observation" then (parseObservation (.obj fields)).map Resource.observation
      else .ok .unknown) = .ok .unknown
    rw [if_neg h1, if_neg h2, if_neg h3, if_neg h4, if_neg h5]
  · intro b e he t hmem
    rw [renderedTimeline_eq] at hmem
    obtain ⟨a, _, hfa⟩ := List.mem_filterMap.mp (List.mem_mergeSort.mp hmem)
    obtain ⟨t', ht', heq⟩ := Option.map_eq_some'.mp hfa
    have ha1 : a = e := congrArg Prod.fst heq
    rw [ha1, he] at ht'
    exact Option.noConfusion ht'

theorem claim_C8_unknown_entry_amended_witness :
    parseResource (.obj [("resourceType", .str "Medication"), ("id", .str "m1")])
      = .ok .unknown :=
  claim_C8_unknown_entry_amended.1 [("resourceType", .str "Medication"), ("id", .str "m1")]
    "Medication" rfl (by decide)
